import Mathlib

/-!
Verification development for the AWS Lambda AI-agent repository
(`index.mjs`, plus the earlier variant in `unnamed/part_000`).

The JavaScript source is shallowly embedded: JS runtime values are the
inductive `Value`; JS numbers are modelled as rationals (the source never
exercises NaN/Infinity on the paths under study); external collaborators
(the Supabase store, the completion HTTP endpoint, `JSON.parse`, the clock)
are oracle parameters (`Env`, attempt/parse functions), while everything the
repository's own code computes — validation, query building, retry control
flow, scoring, dispatch, the agent loop — is embedded directly from the
source.  All definitions are structural (fuel replaces `while` loops, with
fuel equal to the source's loop bound), so closed instances evaluate by
`rfl`/`decide`.
-/

/-- JavaScript runtime values, as far as the embedded code observes them. -/
inductive Value where
  | vundefined
  | vnull
  | vbool (b : Bool)
  | vnum (q : ℚ)
  | vstr (s : String)
  | varr (elems : List Value)
  | vobj (fields : List (String × Value))
deriving BEq, Repr

namespace Value

/-- JavaScript truthiness: `undefined`, `null`, `false`, `0`, `""` are falsy
(NaN is not representable in the ℚ number model). -/
def truthy : Value → Bool
  | vundefined => false
  | vnull => false
  | vbool b => b
  | vnum q => decide (q ≠ 0)
  | vstr s => decide (s ≠ "")
  | varr _ => true
  | vobj _ => true

/-- Property lookup on an object: last binding wins, as for duplicate keys in
a JS object literal.  Property access on any non-object (including strings,
for the properties this code reads) yields `undefined`. -/
def getField (v : Value) (key : String) : Value :=
  match v with
  | vobj fields =>
    match fields.reverse.find? (fun kv => kv.1 == key) with
    | some kv => kv.2
    | none => vundefined
  | _ => vundefined

/-- The JS `||` operator: the left operand if truthy, otherwise the right. -/
def jsOr (a b : Value) : Value := if a.truthy then a else b

/-- Strict equality of a value with a string literal (JS `===` in a `switch`
over strings). -/
def strictEqStr (v : Value) (s : String) : Bool :=
  match v with
  | vstr t => t == s
  | _ => false

/-- Length as read by `.length`: defined for arrays and strings, `undefined`
(here `none`) otherwise. -/
def jsLength : Value → Option ℕ
  | varr l => some l.length
  | vstr s => some s.length
  | _ => none

end Value

/-! String helpers.  All are structural over `List Char` so that closed
instances reduce; library functions defined by well-founded recursion
(`String.toLower`, `String.trim`, …) are avoided on purpose. -/

/-- Lower-casing, as `String.prototype.toLowerCase` on the ASCII range used
by this code. -/
def toLowerS (s : String) : String := String.mk (s.data.map Char.toLower)

/-- Character-list version of JS `String.prototype.includes`. -/
def listIncludes (hay pat : List Char) : Bool :=
  match hay with
  | [] => pat.isEmpty
  | _ :: t => pat.isPrefixOf hay || listIncludes t pat

/-- JS `s.includes(sub)`. -/
def strIncludes (s sub : String) : Bool := listIncludes s.data sub.data

/-- Whitespace class of the JS regexes `\s` and of `String.prototype.trim`
(ASCII part; the exotic Unicode members are not produced by this code). -/
def isJsWs (c : Char) : Bool :=
  c = ' ' || c = '\t' || c = '\n' || c = '\r' || c = '\x0b' || c = '\x0c'

/-- JS `String.prototype.trim`. -/
def trimS (s : String) : String :=
  String.mk (((s.data.dropWhile isJsWs).reverse.dropWhile isJsWs).reverse)

/-- Splitting at a separator character, JS `String.prototype.split(",")`. -/
def splitAtChar (sep : Char) (cs : List Char) : List (List Char) :=
  match cs with
  | [] => [[]]
  | c :: t =>
    let rest := splitAtChar sep t
    if c = sep then [] :: rest
    else
      match rest with
      | [] => [[c]]
      | h :: t2 => (c :: h) :: t2

/-- Index of the first occurrence of a character, JS `indexOf`. -/
def firstIdxOf (cs : List Char) (c : Char) : Option ℕ :=
  match cs with
  | [] => none
  | h :: t => if h = c then some 0 else (firstIdxOf t c).map (· + 1)

/-- Index of the last occurrence of a character, JS `lastIndexOf`. -/
def lastIdxOf (cs : List Char) (c : Char) : Option ℕ :=
  match (firstIdxOf cs.reverse c) with
  | some i => some (cs.length - 1 - i)
  | none => none

/-- Number rendering for template literals and `JSON.stringify`.  Integral
values render exactly as in JS; non-integral values use a fraction notation
(an approximation of JS decimal output — no claim depends on it). -/
def numToString (q : ℚ) : String :=
  if q.den = 1 then toString q.num else toString q.num ++ "/" ++ toString q.den

mutual

/-- String coercion of a value in a template literal. -/
def jsToString : Value → String
  | .vundefined => "undefined"
  | .vnull => "null"
  | .vbool b => if b then "true" else "false"
  | .vnum q => numToString q
  | .vstr s => s
  | .varr l => String.intercalate "," (jsToStringList l)
  | .vobj _ => "[object Object]"

/-- String coercions of the elements of an array (JS `Array.prototype.toString`
joins them with commas). -/
def jsToStringList : List Value → List String
  | [] => []
  | v :: t => jsToString v :: jsToStringList t

end

/-- Minimal JSON string escaping (quote and backslash; control characters do
not occur in the strings this development evaluates). -/
def jsonQuote (s : String) : String :=
  "\"" ++ String.mk (s.data.flatMap (fun c =>
    if c = '"' then ['\\', '"'] else if c = '\\' then ['\\', '\\'] else [c])) ++ "\""

mutual

/-- JS `JSON.stringify` (without indentation): `none` models the JS value
`undefined` that `stringify` returns for an undefined top-level argument. -/
def jsonStringify : Value → Option String
  | .vundefined => none
  | .vnull => some ("null")
  | .vbool b => some (if b then "true" else "false")
  | .vnum q => some (numToString q)
  | .vstr s => some (jsonQuote s)
  | .varr l => some ("[" ++ String.intercalate "," (jsonStringifyArr l) ++ "]")
  | .vobj fields => some ("\x7b" ++ String.intercalate "," (jsonStringifyFields fields) ++ "\x7d")

/-- Array elements: an undefined element stringifies as `null`. -/
def jsonStringifyArr : List Value → List String
  | [] => []
  | v :: t => ((jsonStringify v).getD ("null")) :: jsonStringifyArr t

/-- Object fields: fields with undefined values are dropped. -/
def jsonStringifyFields : List (String × Value) → List String
  | [] => []
  | (k, v) :: t =>
    match jsonStringify v with
    | some s => (jsonQuote k ++ ":" ++ s) :: jsonStringifyFields t
    | none => jsonStringifyFields t

end

/-- Interpolation of a `JSON.stringify` result into a template literal
(an undefined result prints as `undefined`). -/
def stringifyTmpl (v : Value) : String := (jsonStringify v).getD ("undefined")

/-! Completion client (`makeAIRequest`, index.mjs lines 786-895): JSON
extraction from a noisy reply, and the retry loop.  The HTTP transport and
`JSON.parse` are external collaborators, passed in as oracles. -/

/-- The backquote character (written via its code point). -/
def btick : Char := Char.ofNat 96

/-- The three-character fence marker. -/
def tick3 : List Char := [btick, btick, btick]

/-- Index of the first position where `pat` occurs as an infix. -/
def firstInfixIdx (pat : List Char) : List Char → Option ℕ
  | [] => if pat.isEmpty then some 0 else none
  | c :: t => if pat.isPrefixOf (c :: t) then some 0 else (firstInfixIdx pat t).map (· + 1)

/-- Capture group of the JS regex ```` /```(?:json)?\s*([\s\S]*?)```/ ````
applied to a character list: at the first fence marker whose attempt can be
closed by a later marker, the text after the marker, after an optional
literal `json` tag and the maximal run of whitespace, up to the next fence
marker.  (The greedy `(?:json)?` and `\s*` followed by the lazy capture make
the match deterministic: consuming the tag or whitespace never changes
whether a closing marker exists, so no backtracking case remains.) -/
def fenceCaptureAux : List Char → Option (List Char)
  | [] => none
  | c :: t =>
    if tick3.isPrefixOf (c :: t) then
      let rest := t.drop 2
      let rest1 := if ("json").data.isPrefixOf rest then rest.drop 4 else rest
      let rest2 := rest1.dropWhile isJsWs
      match firstInfixIdx tick3 rest2 with
      | some q => some (rest2.take q)
      | none => fenceCaptureAux t
    else fenceCaptureAux t

/-- String version of the regex capture. -/
def fenceCapture (s : String) : Option String := (fenceCaptureAux s.data).map String.mk

/-- Stage 1 of the extraction (index.mjs lines 832-841): if the raw reply
contains a fence marker and the regex matches with a non-empty capture
group, the trimmed capture replaces the content; otherwise the content is
kept unchanged. -/
def fenceStage (rawReply : String) : String :=
  if strIncludes rawReply ("```") then
    match fenceCapture rawReply with
    | some cap => if cap ≠ "" then trimS cap else rawReply
    | none => rawReply
  else rawReply

/-- Stage 2 of the extraction (index.mjs lines 843-849): keep the substring
from the first `{` to the last `}` inclusive, when the first `{` exists and
the last `}` lies strictly after it; otherwise keep the text unchanged. -/
def braceSlice (s : String) : String :=
  let cs := s.data
  match firstIdxOf cs '{', lastIdxOf cs '}' with
  | some i, some j => if i < j then String.mk ((cs.take (j + 1)).drop i) else s
  | some _, none => s
  | none, _ => s

/-- The complete extraction applied to a raw completion reply before
`JSON.parse` (index.mjs lines 830-852). -/
def extractJsonContent (rawReply : String) : String := braceSlice (fenceStage rawReply)

/-- Outcome of one HTTP attempt, as the embedded code observes it:
a thrown transport/JSON-body error with its message, or a reply whose
`choices[0].message.content` is the given optional string. -/
inductive Attempt where
  | transportError (msg : String)
  | reply (content : Option String)

/-- Extraction of the message content (index.mjs line 815): an absent or
empty (falsy) content field is replaced by the sentinel `"No response"`. -/
def rawReplyOf (content : Option String) : String :=
  match content with
  | some c => if c = "" then "No response" else c
  | none => "No response"

/-- The shared retry budget of the completion client. -/
def MAX_RETRIES : ℕ := 5

/-- Message used in the exhaustion diagnostic (`lastError?.message ||
"Unknown error"`). -/
def lastErrMsg (lastError : Option String) : String :=
  match lastError with
  | some m => if m = "" then "Unknown error" else m
  | none => "Unknown error"

/-- The object returned after exhausting all retries (index.mjs lines
890-894).  Note that it carries `function` and `parameters` fields but no
`function_calls` field. -/
def fallbackDecision (lastError : Option String) : Value :=
  .vobj [("answer", .vstr ("Error: Failed to communicate with AI service after "
            ++ toString MAX_RETRIES ++ " attempts. Last error: " ++ lastErrMsg lastError)),
         ("function", .vstr ""),
         ("parameters", .vobj [])]

/-- The retry loop of `makeAIRequest` (index.mjs lines 791-894), with fuel
`MAX_RETRIES - retryCount` replacing the `while` condition.  The second
component of the result counts the attempts made.  Backoff delays and the
performance metrics are timing only and are not modelled. -/
def aiRequestLoop (att : ℕ → Attempt) (parse : String → Except String Value) :
    ℕ → ℕ → Option String → Value × ℕ
  | 0, retryCount, lastError => (fallbackDecision lastError, retryCount)
  | fuel + 1, retryCount, lastError =>
    match att retryCount with
    | .transportError msg => aiRequestLoop att parse fuel (retryCount + 1) (some msg)
    | .reply content =>
      let rawReply := rawReplyOf content
      if trimS rawReply = "No response" then
        aiRequestLoop att parse fuel (retryCount + 1) lastError
      else
        match parse (extractJsonContent rawReply) with
        | .ok parsedReply => (parsedReply, retryCount + 1)
        | .error e => aiRequestLoop att parse fuel (retryCount + 1) (some e)

/-- The completion client: up to `MAX_RETRIES` attempts, then the fallback
decision.  `att k` is the outcome of the attempt made with `retryCount = k`;
`parse` is the external `JSON.parse`, returning the parsed value or the
thrown `SyntaxError`'s message. -/
def makeAIRequest (att : ℕ → Attempt) (parse : String → Except String Value) : Value × ℕ :=
  aiRequestLoop att parse MAX_RETRIES 0 none

/-! Query compiler (`dynamicSupabaseOperation`, index.mjs lines 25-301).
The supabase-js client builds a request by method chaining; the chain is
embedded as the list of builder steps in call order, and its execution by
the external store is an oracle (`Env.execQuery`). -/

/-- One supabase-js builder method call. -/
inductive QStep where
  | selectCols (columns : Value)
  | selectForeign (columns : String) (foreignTable : Value)
  | insertData (data : Value)
  | updateData (data : Value)
  | deleteRows
  | upsertData (data : Value) (options : Value)
  | eqF (col v : Value)
  | neqF (col v : Value)
  | gtF (col v : Value)
  | ltF (col v : Value)
  | gteF (col v : Value)
  | lteF (col v : Value)
  | likeF (col : Value) (pattern : String)
  | ilikeF (col : Value) (pattern : String)
  | inF (col v : Value)
  | containsF (col v : Value)
  | orF (expr : String)
  | orderBy (col : Value) (ascending : Value)
  | limitTo (n : Value)
  | offsetBy (n : Value)
  | single
deriving BEq, Repr

/-- A fully built store request: target table plus the chained steps. -/
structure SupaQuery where
  table : String
  steps : List QStep
deriving BEq, Repr

/-- A well-formed row of the `knowledge_snippets` table, as the store
returns it (string topic and content, numeric confidence, arbitrary
further fields). -/
structure Snippet where
  id : Value
  topic : String
  content : String
  confidence : ℚ
  related_entities : Value
  rest : List (String × Value)

/-- Result of a read on `knowledge_snippets`: a store error (the code reads
its `.message`) or the matching rows. -/
inductive KReadResult where
  | err (message : String)
  | rows (snippets : List Snippet)

/-- External collaborators: store execution for the generic query compiler
and the specializations lookup, typed reads and writes on
`knowledge_snippets`, and the clock (`new Date().toISOString()`). -/
structure Env where
  execQuery : SupaQuery → Value × Value
  knowledgeRead : List QStep → KReadResult
  knowledgeWrite : SupaQuery → Value
  nowISO : String

/-- Module-level mutable state of index.mjs (lines 18-19) plus the
append-only audit log the code writes through
`supabase.from('interactions').insert(...)`: the log records the inserted
records, in order. -/
structure GState where
  currentSpecialization : Value
  specializationInstructionText : Value
  interactionsLog : List Value

/-- The initial module state: `currentSpecialization = null`,
`specializationInstructionText = ""`, nothing logged. -/
def initialState : GState :=
  { currentSpecialization := .vnull, specializationInstructionText := .vstr "", interactionsLog := [] }

/-- Indexing `v[n]`, used by the `range` operator on `filter.value`. -/
def jsIndex (v : Value) (n : ℕ) : Value :=
  match v with
  | .varr l => (l.get? n).getD .vundefined
  | .vstr s => match s.data.get? n with
    | some c => .vstr (String.mk [c])
    | none => .vundefined
  | _ => .vundefined

/-- Iteration for `Array.prototype.forEach`: only arrays have the method;
a truthy non-array receiver throws a `TypeError`, which the handlers' outer
`catch` turns into a failed result (the exact engine message is not
modelled, and no claim depends on it). -/
def asForEachArray (v : Value) : Except String (List Value) :=
  match v with
  | .varr l => .ok l
  | _ => .error ("TypeError: forEach is not a function")

/-- One `filters` entry of the `select` action (index.mjs lines 45-86). -/
def selectFilterStep (filter : Value) : Except String (List QStep) :=
  let col := filter.getField "column"
  let v := filter.getField "value"
  let op := filter.getField "operator"
  if op.strictEqStr "eq" then .ok [.eqF col v]
  else if op.strictEqStr "neq" then .ok [.neqF col v]
  else if op.strictEqStr "gt" then .ok [.gtF col v]
  else if op.strictEqStr "lt" then .ok [.ltF col v]
  else if op.strictEqStr "gte" then .ok [.gteF col v]
  else if op.strictEqStr "lte" then .ok [.lteF col v]
  else if op.strictEqStr "like" then .ok [.likeF col ("%" ++ jsToString v ++ "%")]
  else if op.strictEqStr "ilike" then .ok [.ilikeF col ("%" ++ jsToString v ++ "%")]
  else if op.strictEqStr "in" then .ok [.inF col v]
  else if op.strictEqStr "contains" then .ok [.containsF col v]
  else if op.strictEqStr "range" then .ok [.gteF col (jsIndex v 0), .lteF col (jsIndex v 1)]
  else .error ("Unsupported filter operator: " ++ jsToString op)

/-- One `filters` entry of the `update` action (index.mjs lines 119-136):
only `eq`, `neq` and `in` are supported. -/
def updateFilterStep (filter : Value) : Except String (List QStep) :=
  let col := filter.getField "column"
  let v := filter.getField "value"
  let op := filter.getField "operator"
  if op.strictEqStr "eq" then .ok [.eqF col v]
  else if op.strictEqStr "neq" then .ok [.neqF col v]
  else if op.strictEqStr "in" then .ok [.inF col v]
  else .error ("Unsupported filter operator: " ++ jsToString op)

/-- One `filters` entry of the `delete` action (index.mjs lines 144-158):
only `eq` and `in` are supported. -/
def deleteFilterStep (filter : Value) : Except String (List QStep) :=
  let col := filter.getField "column"
  let v := filter.getField "value"
  let op := filter.getField "operator"
  if op.strictEqStr "eq" then .ok [.eqF col v]
  else if op.strictEqStr "in" then .ok [.inF col v]
  else .error ("Unsupported filter operator: " ++ jsToString op)

/-- Sequential application of a per-entry builder (the body of a
`forEach` whose callback can throw): stops at the first thrown error. -/
def foldStepsList (entryStep : Value → Except String (List QStep)) :
    List Value → List QStep → Except String (List QStep)
  | [], acc => .ok acc
  | f :: rest, acc =>
    match entryStep f with
    | .error e => .error e
    | .ok s => foldStepsList entryStep rest (acc ++ s)

/-- Folds a per-entry builder over a `filters`-like field when that field is
truthy (the `if (params.filters) params.filters.forEach(...)` pattern). -/
def foldSteps (entryStep : Value → Except String (List QStep)) (field : Value)
    (acc : List QStep) : Except String (List QStep) :=
  if field.truthy then
    match asForEachArray field with
    | .error e => .error e
    | .ok entries => foldStepsList entryStep entries acc
  else .ok acc

/-- The `select` action builder (index.mjs lines 38-107): projection,
filters, ordering, pagination, in that chaining order.  A pagination limit
or offset of `0` is skipped by the source's truthiness test, as written. -/
def buildSelect (params : Value) : Except String (List QStep) := do
  let columns := Value.jsOr (params.getField "columns") (.vstr "*")
  let steps ← foldSteps selectFilterStep (params.getField "filters") [.selectCols columns]
  let steps ←
    if (params.getField "order").truthy then do
      let orders ← asForEachArray (params.getField "order")
      pure (steps ++ orders.map (fun o => .orderBy (o.getField "column") (o.getField "ascending")))
    else pure steps
  let pagination := params.getField "pagination"
  if pagination.truthy then
    let steps := if (pagination.getField "limit").truthy then
      steps ++ [.limitTo (pagination.getField "limit")] else steps
    let steps := if (pagination.getField "offset").truthy then
      steps ++ [.offsetBy (pagination.getField "offset")] else steps
    pure steps
  else pure steps

/-- The `update` action builder (index.mjs lines 113-139).  Note: when the
descriptor carries no `filters` field the conditions loop is skipped
entirely and the unfiltered `update` chain is returned. -/
def buildUpdate (params : Value) : Except String (List QStep) :=
  foldSteps updateFilterStep (params.getField "filters") [.updateData (params.getField "data")]

/-- The `delete` action builder (index.mjs lines 140-161); like `update`,
absent `filters` yields an unfiltered `delete` chain. -/
def buildDelete (params : Value) : Except String (List QStep) :=
  foldSteps deleteFilterStep (params.getField "filters") [.deleteRows]

/-- One join specification (index.mjs lines 182-223). -/
def buildJoinSpec (js : Value) : Except String (List QStep) := do
  if ¬(js.getField "table").truthy ∨ ¬(js.getField "on").truthy then
    throw ("Join specification missing table or on clause")
  let onField := js.getField "on"
  let foreignKey := jsToString (js.getField "table") ++ "(" ++ jsToString (onField.getField "foreign") ++ ")"
  let joinedColumns := Value.jsOr (js.getField "columns") (.vstr "*")
  let formattedColumns ←
    if (js.getField "columnPrefix").truthy then do
      if joinedColumns.strictEqStr "*" then
        throw ("Cannot use \"*\" with columnPrefix. Please specify columns explicitly.")
      match joinedColumns with
      | .vstr s => pure (String.intercalate "," ((splitAtChar ',' s.data).map (fun col =>
          trimS (String.mk col) ++ ":" ++ jsToString (js.getField "columnPrefix") ++ trimS (String.mk col))))
      | _ => throw ("TypeError: split is not a function")
    else pure (jsToString joinedColumns)
  let joinType := Value.jsOr (js.getField "type") (.vstr "inner")
  let joinStep ←
    match joinType with
    | .vstr ty =>
      if toLowerS ty = "inner" then pure (QStep.eqF (onField.getField "local") (.vstr foreignKey))
      else if toLowerS ty = "left" then
        pure (QStep.orF (jsToString (onField.getField "local") ++ ".eq." ++ foreignKey ++ ","
          ++ jsToString (onField.getField "local") ++ ".is.null"))
      else throw ("Unsupported join type: " ++ jsToString joinType)
    | _ => throw ("TypeError: toLowerCase is not a function")
  pure [.selectForeign formattedColumns (js.getField "table"), joinStep]

/-- One `filters` entry of the `join` action (only `eq`, lines 227-236). -/
def joinFilterStep (filter : Value) : Except String (List QStep) :=
  if (filter.getField "operator").strictEqStr "eq" then
    .ok [.eqF (filter.getField "column") (filter.getField "value")]
  else .error ("Unsupported filter operator: " ++ jsToString (filter.getField "operator"))

/-- The `join` action builder (index.mjs lines 168-240). -/
def buildJoin (params : Value) : Except String (List QStep) := do
  if ¬(params.getField "join").truthy then
    throw ("Missing join parameters for join action")
  let baseColumns := Value.jsOr (params.getField "baseColumns") (.vstr "*")
  let specs ← asForEachArray (params.getField "join")
  let steps ← specs.foldlM (fun steps js => do
    let s ← buildJoinSpec js
    pure (steps ++ s)) [QStep.selectCols baseColumns]
  foldSteps joinFilterStep (params.getField "filters") steps

/-- The `search` action builder (index.mjs lines 241-269): an `ilike` on the
first search column, `.or(...)` clauses for the rest, then an optional
projection.  An empty column list leaves the chain undefined in the source
(the later destructuring throws); this is modelled as a thrown error. -/
def buildSearch (params : Value) : Except String (List QStep) := do
  if ¬(params.getField "searchTerm").truthy then
    throw ("Missing searchTerm parameter for search action")
  let searchColumns := Value.jsOr (params.getField "searchColumns")
    (.varr [.vstr "title", .vstr "description", .vstr "content"])
  let cols ← asForEachArray searchColumns
  let term := jsToString (params.getField "searchTerm")
  let steps ←
    match cols with
    | [] => throw ("TypeError: cannot destructure undefined")
    | c0 :: crest =>
      pure ([QStep.ilikeF c0 ("%" ++ term ++ "%")] ++
        crest.map (fun c => QStep.orF (jsToString c ++ ".ilike.%" ++ term ++ "%")))
  if (params.getField "columns").truthy ∧ ¬(params.getField "columns").strictEqStr "*" then
    pure (steps ++ [.selectCols (params.getField "columns")])
  else pure steps

/-- The `actionMap` dispatch (index.mjs lines 37-275): the recognised keys
build their chains, every other action value throws `Unsupported action`.
Prototype-chain keys (e.g. `"constructor"`) are not modelled. -/
def dynSupaBuild (params : Value) : Except String (List QStep) :=
  let key := jsToString (params.getField "action")
  if key = "select" then buildSelect params
  else if key = "insert" then .ok [.insertData (params.getField "data")]
  else if key = "update" then buildUpdate params
  else if key = "delete" then buildDelete params
  else if key = "upsert" then
    .ok [.upsertData (params.getField "data") (Value.jsOr (params.getField "options") (.vobj []))]
  else if key = "join" then buildJoin params
  else if key = "search" then buildSearch params
  else .error ("Unsupported action: " ++ jsToString (params.getField "action"))

/-- The complete handler (index.mjs lines 25-301): parameter validation,
chain building, execution by the store oracle, and the outer `catch` that
turns any thrown error into a failed result.  The handler never touches the
module state. -/
def dynamicSupabaseOperation (env : Env) (params : Value) (st : GState) : Value × GState :=
  let r : Except String Value :=
    if ¬(params.getField "from").truthy ∨ ¬(params.getField "action").truthy then
      .error ("Missing required parameters: \"from\" and \"action\"")
    else
      match dynSupaBuild params with
      | .error e => .error e
      | .ok steps =>
        let (data, error) := env.execQuery { table := jsToString (params.getField "from"), steps := steps }
        if error.truthy then
          .ok (.vobj [("success", .vbool false), ("error", error.getField "message")])
        else
          .ok (.vobj [("success", .vbool true), ("data", data)])
  match r with
  | .ok v => (v, st)
  | .error m => (.vobj [("success", .vbool false), ("error", .vstr m)], st)

/-! Specialization switch (`setSpecialization`, index.mjs lines 304-349). -/

/-- The handler that mutates the module-level persona pointer.  On a
successful lookup it stores `data.name` (a string) in
`currentSpecialization` and `data.instruction_text` in the instruction
text; every failure leaves the state unchanged. -/
def setSpecialization (env : Env) (params : Value) (st : GState) : Value × GState :=
  let nameV := params.getField "specializationName"
  if ¬nameV.truthy then
    (.vobj [("success", .vbool false), ("error", .vstr ("Missing required parameter: \"name\""))], st)
  else
    let spQuery : SupaQuery :=
      { table := "specializations",
        steps := [.selectCols (.vstr "id, name, instruction_text"),
                  .eqF (.vstr "name") nameV, .single] }
    let (data, error) := env.execQuery spQuery
    if error.truthy then
      (.vobj [("success", .vbool false), ("error", .vstr ("Failed to retrieve specialization."))], st)
    else if ¬data.truthy then
      (.vobj [("success", .vbool false),
        ("error", .vstr ("Specialization \"" ++ jsToString nameV ++ "\" not found or inactive."))], st)
    else
      let st2 := { st with currentSpecialization := data.getField "name",
                           specializationInstructionText := data.getField "instruction_text" }
      (.vobj [("success", .vbool true),
        ("data", .vstr ("Switched to specialization: " ++ jsToString (data.getField "name")))], st2)

/-! Knowledge store (index.mjs lines 352-559). -/

/-- The object-spread merge `\x7b...a, ...b\x7d`: keys of `a` in order (with
`b`'s value where overridden), then `b`'s new keys.  Spreading a non-object
contributes no modelled fields (string index properties are not modelled;
the source only spreads row objects). -/
def mergeSpread (a b : Value) : Value :=
  match a, b with
  | .vobj fa, .vobj fb =>
    .vobj ((fa.map (fun kv =>
        match fb.reverse.find? (fun kv2 => kv2.1 == kv.1) with
        | some kv2 => (kv.1, kv2.2)
        | none => kv))
      ++ fb.filter (fun kv2 => ¬ fa.any (fun kv => kv.1 == kv2.1)))
  | .vobj fa, _ => .vobj fa
  | _, .vobj fb => .vobj fb
  | _, _ => .vobj []

/-- The candidate query of a synthesis call (lines 360-364):
`select('*').ilike('topic', '%topic%').limit(5)`. -/
def synthSearchSteps (topicV : Value) : List QStep :=
  [.selectCols (.vstr "*"), .ilikeF (.vstr "topic") ("%" ++ jsToString topicV ++ "%"),
   .limitTo (.vnum 5)]

/-- The stored confidence expression `params.confidence || 0.7`
(lines 388 and 406): any falsy confidence — absent, null, or the number 0 —
falls back to the 0.7 default; no clamping is applied. -/
def storedConfidence (params : Value) : Value :=
  Value.jsOr (params.getField "confidence") (.vnum (7/10))

/-- The record written by the update branch of a synthesis (lines 384-393). -/
def synthUpdateData (env : Env) (params : Value) (s0 : Snippet) : Value :=
  .vobj [("id", s0.id), ("last_updated", .vstr env.nowISO),
         ("content", params.getField "content"),
         ("confidence", storedConfidence params),
         ("related_entities",
           if (params.getField "related_entities").truthy then
             mergeSpread s0.related_entities (params.getField "related_entities")
           else s0.related_entities)]

/-- The record written by the insert branch of a synthesis (lines 402-408). -/
def synthInsertData (params : Value) : Value :=
  .vobj [("topic", params.getField "topic"), ("content", params.getField "content"),
         ("source", Value.jsOr (params.getField "source") (.vstr "user_interaction")),
         ("confidence", storedConfidence params),
         ("related_entities", Value.jsOr (params.getField "related_entities") (.vobj []))]

/-- The audit record a successful synthesis appends to `interactions`
(lines 428-437). -/
def synthAuditRecord (params : Value) (found : Bool) : Value :=
  .vobj [("query", Value.jsOr (params.getField "sourceQuery") (.vstr "knowledge synthesis")),
         ("response", .vstr "knowledge updated"),
         ("knowledge_updated", .vobj [("topic", params.getField "topic"),
            ("operation", .vstr (if found then "update" else "insert"))])]

/-- Knowledge synthesis (lines 352-456): candidate lookup, update-or-insert,
audit logging, and the result carrying the written record. -/
def synthesizeKnowledge (env : Env) (params : Value) (st : GState) : Value × GState :=
  if ¬(params.getField "topic").truthy ∨ ¬(params.getField "content").truthy then
    (.vobj [("success", .vbool false),
      ("error", .vstr ("Missing required parameters: \"topic\" and \"content\""))], st)
  else
    match env.knowledgeRead (synthSearchSteps (params.getField "topic")) with
    | .err m => (.vobj [("success", .vbool false), ("error", .vstr m)], st)
    | .rows existingSnippets =>
      let found := decide (0 < existingSnippets.length)
      let operationData :=
        match existingSnippets with
        | s0 :: _ => synthUpdateData env params s0
        | [] => synthInsertData params
      let operation : SupaQuery :=
        match existingSnippets with
        | s0 :: _ => { table := "knowledge_snippets",
                       steps := [.updateData operationData, .eqF (.vstr "id") s0.id] }
        | [] => { table := "knowledge_snippets", steps := [.insertData operationData] }
      let error := env.knowledgeWrite operation
      if error.truthy then
        (.vobj [("success", .vbool false), ("error", error.getField "message")], st)
      else
        let st2 := { st with interactionsLog := st.interactionsLog ++ [synthAuditRecord params found] }
        (.vobj [("success", .vbool true),
          ("data", .vobj [("message", .vstr (if found then "Existing knowledge updated" else "New knowledge created")),
                          ("knowledge", operationData)])], st2)

/-- The JS word character class `\w`. -/
def isWordChar (c : Char) : Bool := c.isAlphanum || c = '_'

/-- Splitting on whitespace runs (the effect of `split(/\s+/)` followed by
the length filter, which discards the possible leading empty token). -/
def splitWsAux : List Char → List Char → List (List Char)
  | [], acc => if acc.isEmpty then [] else [acc.reverse]
  | c :: t, acc =>
    if isJsWs c then
      if acc.isEmpty then splitWsAux t [] else acc.reverse :: splitWsAux t []
    else splitWsAux t (c :: acc)

/-- Keyword extraction of a retrieval query (lines 468-471): lower-case,
strip characters outside `\w` and `\s`, split on whitespace, keep tokens
longer than 3 characters. -/
def tokenizeQuery (q : String) : List String :=
  let cleaned := ((toLowerS q).data).filter (fun c => isWordChar c || isJsWs c)
  ((splitWsAux cleaned []).map String.mk).filter (fun w => w.length > 3)

/-- The keyword query chain of a retrieval (lines 482-493): `ilike` on the
topic for the first keyword, an `.or(topic ilike, content ilike)` clause for
each further keyword. -/
def retrieveSteps (queryWords : List String) : List QStep :=
  [QStep.selectCols (.vstr "*")] ++
  (match queryWords with
   | [] => []
   | w0 :: rest =>
     [QStep.ilikeF (.vstr "topic") ("%" ++ w0 ++ "%")] ++
     rest.map (fun w => QStep.orF ("topic.ilike.%" ++ w ++ "%,content.ilike.%" ++ w ++ "%")))

/-- The relevance score of one snippet (lines 508-522): per keyword, +3 for
a topic match and +1 for a content match (case-insensitive substring), the
total multiplied by the snippet's confidence. -/
def scoreSnippet (queryWords : List String) (s : Snippet) : ℚ :=
  (queryWords.foldl (fun score w =>
    let score := if strIncludes (toLowerS s.topic) w then score + 3 else score
    if strIncludes (toLowerS s.content) w then score + 1 else score) 0) * s.confidence

/-- Ordering used to model `sort((a, b) => b.relevance_score -
a.relevance_score)`: descending by score. -/
def scoredRel (a b : Snippet × ℚ) : Prop := b.2 ≤ a.2

instance : DecidableRel scoredRel := fun a b => inferInstanceAs (Decidable (b.2 ≤ a.2))

instance : IsTotal (Snippet × ℚ) scoredRel := ⟨fun a b => le_total b.2 a.2⟩

instance : IsTrans (Snippet × ℚ) scoredRel := ⟨fun _ _ _ h1 h2 => le_trans h2 h1⟩

/-- The sort of the scored snippets; a stable sort by descending score, as
ES2019 specifies for `Array.prototype.sort` with this comparator. -/
def sortScored (l : List (Snippet × ℚ)) : List (Snippet × ℚ) := List.insertionSort scoredRel l

/-- Truncation toward zero of a rational (JS `ToIntegerOrInfinity`). -/
def jsTruncInt (q : ℚ) : Int :=
  if q < 0 then -((((-q).num.toNat / q.den : ℕ) : Int)) else (((q.num.toNat / q.den : ℕ) : Int))

/-- JS `list.slice(0, v)` for the end arguments this code produces: a
number (negative counts from the end), or undefined (whole list).  Other
end values would go through `ToNumber` and are not modelled. -/
def jsSliceTo (l : List α) (v : Value) : List α :=
  match v with
  | .vnum q =>
    let t := jsTruncInt q
    if t < 0 then l.take ((l.length : Int) + t).toNat else l.take t.toNat
  | .vundefined => l
  | _ => []

/-- A snippet row as a JS object (field layout of the stored row). -/
def snippetToValue (s : Snippet) : Value :=
  .vobj ([("id", s.id), ("topic", .vstr s.topic), ("content", .vstr s.content),
          ("confidence", .vnum s.confidence), ("related_entities", s.related_entities)] ++ s.rest)

/-- The returned row `\x7b...snippet, relevance_score: score\x7d` (lines 524-527). -/
def scoredToValue (p : Snippet × ℚ) : Value :=
  mergeSpread (snippetToValue p.1) (.vobj [("relevance_score", .vnum p.2)])

/-- The audit record a successful retrieval appends (lines 536-545);
`sortedResults` is the sorted and truncated list. -/
def retrieveAuditRecord (params : Value) (sortedResults : List (Snippet × ℚ)) : Value :=
  .vobj [("query", params.getField "query"), ("response", .vstr "knowledge retrieved"),
         ("context_retrieved", .vobj [("snippets_count", .vnum sortedResults.length),
            ("top_topic", match sortedResults with
              | [] => .vnull
              | p :: _ => .vstr p.1.topic)])]

/-- Knowledge retrieval (lines 459-559): tokenization, early empty return,
keyword query, scoring, descending sort, truncation to `params.limit || 5`,
audit logging.  A truthy non-string query would throw a `TypeError` at
`.toLowerCase()` which the outer catch converts to a failed result. -/
def retrieveRelevantKnowledge (env : Env) (params : Value) (st : GState) : Value × GState :=
  let qv := params.getField "query"
  if ¬qv.truthy then
    (.vobj [("success", .vbool false), ("error", .vstr ("Missing required parameter: \"query\""))], st)
  else
    match qv with
    | .vstr q =>
      let queryWords := tokenizeQuery q
      if queryWords.isEmpty then
        (.vobj [("success", .vbool true), ("data", .varr [])], st)
      else
        match env.knowledgeRead (retrieveSteps queryWords) with
        | .err m => (.vobj [("success", .vbool false), ("error", .vstr m)], st)
        | .rows data =>
          let scoredResults := data.map (fun s => (s, scoreSnippet queryWords s))
          let sortedResults := jsSliceTo (sortScored scoredResults)
            (Value.jsOr (params.getField "limit") (.vnum 5))
          let st2 := { st with
            interactionsLog := st.interactionsLog ++ [retrieveAuditRecord params sortedResults] }
          (.vobj [("success", .vbool true), ("data", .varr (sortedResults.map scoredToValue))], st2)
    | _ => (.vobj [("success", .vbool false),
        ("error", .vstr ("TypeError: toLowerCase is not a function"))], st)

/-! Function dispatch (`executeFunctions`, index.mjs lines 897-978) and the
handler registry (`functionMap`, lines 11-16). -/

/-- A dispatchable handler: oracles, the `parameters` value, the module
state; `Except` carries a thrown error (the four registered handlers catch
internally and never throw). -/
def Handler : Type := Env → Value → GState → Except String (Value × GState)

/-- The `functionMap` registry of index.mjs (prototype-chain keys are not
modelled). -/
def functionMap : String → Option Handler := fun name =>
  if name = "dynamicSupabaseOperation" then
    some (fun env p st => .ok (dynamicSupabaseOperation env p st))
  else if name = "setSpecialization" then
    some (fun env p st => .ok (setSpecialization env p st))
  else if name = "synthesizeKnowledge" then
    some (fun env p st => .ok (synthesizeKnowledge env p st))
  else if name = "retrieveRelevantKnowledge" then
    some (fun env p st => .ok (retrieveRelevantKnowledge env p st))
  else none

/-- The `getDatabaseInfo` handler of the earlier variant
(`unnamed/part_000` lines 19-28): returns the row array directly on
success, and an object with only an `error` field — no `success` field —
on a store error. -/
def getDatabaseInfo (env : Env) (params : Value) (st : GState) : Except String (Value × GState) :=
  let tableName := params.getField "tableName"
  let (data, error) := env.execQuery
    { table := jsToString tableName, steps := [.selectCols (.vstr "id, description")] }
  if error.truthy then .ok (.vobj [("error", .vstr ("Failed to retrieve data."))], st)
  else .ok (data, st)

/-- The recorded success flag `result.success !== false` (line 925): strict
inequality with `false`, so any other value — including an absent field —
counts as success. -/
def strictNeqFalse (v : Value) : Bool :=
  match v with
  | .vbool false => false
  | _ => true

/-- One pass of the dispatch loop body (lines 904-942) for one requested
call: unknown-name result, normal-return result with the computed
`success`/`data`/`error` fields, or the caught-exception result. -/
def execCallWith (fm : String → Option Handler) (env : Env) (call : Value) (st : GState) :
    Value × GState :=
  let functionName := call.getField "function"
  let parameters := call.getField "parameters"
  match fm (jsToString functionName) with
  | none =>
    (.vobj [("functionName", functionName),
      ("error", .vstr ("Function " ++ jsToString functionName ++ " not found"))], st)
  | some h =>
    match h env parameters st with
    | .ok (result, st2) =>
      (.vobj [("functionName", functionName), ("parameters", parameters),
        ("success", .vbool (strictNeqFalse (result.getField "success"))),
        ("data", Value.jsOr (result.getField "data") result),
        ("error", Value.jsOr (result.getField "error") .vnull)], st2)
    | .error m =>
      (.vobj [("functionName", functionName), ("success", .vbool false),
        ("error", .vstr ("Failed to execute function " ++ jsToString functionName ++ ": " ++ m))], st)

/-- The sequential `for (const functionCall of functionCalls)` loop: one
result per requested call, in order, threading the module state. -/
def executeFunctionsWith (fm : String → Option Handler) (env : Env) :
    List Value → GState → List Value × GState
  | [], st => ([], st)
  | c :: cs, st =>
    let (r, st1) := execCallWith fm env c st
    let (rs, st2) := executeFunctionsWith fm env cs st1
    (r :: rs, st2)

/-- The rendered block of one result (lines 946-975). -/
def renderResult (idx : ℕ) (result : Value) : String :=
  let functionName := result.getField "functionName"
  let paramString := stringifyTmpl (result.getField "parameters")
  let header := "Function Call " ++ toString (idx + 1) ++ ": "
    ++ jsToString functionName ++ "(" ++ paramString ++ ")\n"
  let body :=
    if (result.getField "success").truthy then
      let d := result.getField "data"
      let s := "Status: Success\n"
      if d.truthy then
        match d with
        | .vobj _ | .varr _ =>
          (match d.getField "data" with
           | .varr items =>
             s ++ "Retrieved " ++ toString items.length ++ " records:\n" ++
               String.join (items.enum.map (fun p =>
                 "  Record " ++ toString (p.1 + 1) ++ ": " ++ stringifyTmpl p.2 ++ "\n"))
           | _ => s ++ "Data: " ++ stringifyTmpl d ++ "\n")
        | _ => s ++ "Data: " ++ jsToString d ++ "\n"
      else s
    else
      "Status: Failed\n" ++ "Error: " ++ jsToString (result.getField "error") ++ "\n"
  header ++ body ++ "\n"

/-- The combined readable-results string (lines 944-977). -/
def renderResults (results : List Value) : String :=
  String.join (results.enum.map (fun p => renderResult p.1 p.2))

/-- The dispatcher over the registered `functionMap`.  The JS function
returns only the rendered string; the internal results array is exposed
here alongside it as the specification's observation point. -/
def executeFunctions (env : Env) (functionCalls : List Value) (st : GState) :
    List Value × String × GState :=
  let (results, st2) := executeFunctionsWith functionMap env functionCalls st
  (results, renderResults results, st2)

/-! Orchestrator (`runAIAgent`, index.mjs lines 980-1064).  The prompt
assembly (lines 996-1018) only feeds `makeAIRequest`; the decision value
produced at iteration `i` is abstracted as the oracle `decisions i`.
Metrics are timing-only and not modelled. -/

/-- The loop guard `aiResponse.function_calls &&
aiResponse.function_calls.length > 0` (line 1024). -/
def hasFunctionCalls (aiResponse : Value) : Bool :=
  let fc := aiResponse.getField "function_calls"
  fc.truthy && (match fc.jsLength with
    | some n => decide (0 < n)
    | none => false)

/-- Iteration of `for...of` over the guarded `function_calls` value (arrays
and strings; other values cannot pass the guard with a defined length). -/
def jsIterate : Value → List Value
  | .varr l => l
  | .vstr s => s.data.map (fun c => .vstr (String.mk [c]))
  | _ => []

/-- The iteration budget of the agent loop (line 987). -/
def MAX_ITERATIONS : ℕ := 5

/-- The fixed degradation answer returned when the budget is exhausted
(line 1059, spelling as in the source). -/
def degradationAnswer : String :=
  "I couldn\x27t complete your request after 5 agent itterations."

/-- What the loop returns to its caller.  `iterationsUsed` counts the
completion rounds actually performed (the final value of `iterations`). -/
structure AgentResult where
  answer : Value
  conversationHistory : List String
  specialization : Value
  iterationsUsed : ℕ

/-- The returned `specialization` field (lines 1050 and 1062):
`currentSpecialization ? currentSpecialization.name : 'none'`.  The
stored value is the specialization's *name string*, so the `.name` access
on it yields `undefined` whenever a specialization is active. -/
def specializationField (st : GState) : Value :=
  if st.currentSpecialization.truthy then st.currentSpecialization.getField "name"
  else .vstr "none"

/-- The `while (iterations < MAX_ITERATIONS)` loop (lines 991-1053), with
fuel `MAX_ITERATIONS - iterations`.  The entry pushed after a function
round (line 1031) reads `currentSpecialization` after the batch has
executed, as the source does. -/
def agentLoop (decisions : ℕ → Value) (env : Env) :
    ℕ → ℕ → List String → GState → AgentResult
  | 0, iterations, conversationHistory, st =>
    { answer := .vstr degradationAnswer,
      conversationHistory := conversationHistory,
      specialization := specializationField st,
      iterationsUsed := iterations }
  | fuel + 1, iterations, conversationHistory, st =>
    let iterations := iterations + 1
    let aiResponse := decisions iterations
    if hasFunctionCalls aiResponse then
      let (_, functionsResult, st2) :=
        executeFunctions env (jsIterate (aiResponse.getField "function_calls")) st
      let entry := "\nCONVERSATION HISTORY ROLE: LLM - " ++ jsToString st2.currentSpecialization
        ++ "\n\nReasoning: " ++ jsToString (aiResponse.getField "reasoning")
        ++ "\n\n" ++ functionsResult ++ "\n"
      agentLoop decisions env fuel iterations (conversationHistory ++ [entry]) st2
    else
      { answer := aiResponse.getField "answer",
        conversationHistory := conversationHistory ++
          ["\nCONVERSATION HISTORY ROLE: LLM\n\nResponse to user:\n"
            ++ jsToString (aiResponse.getField "answer") ++ "\n"],
        specialization := specializationField st,
        iterationsUsed := iterations }

/-- The agent loop from its initial state (lines 980-1064): the transcript
starts with the user entry (line 984), `iterations = 0`, and the loop runs
with the full budget. -/
def runAIAgent (decisions : ℕ → Value) (env : Env) (userPrompt : String) (st : GState) :
    AgentResult :=
  agentLoop decisions env MAX_ITERATIONS 0
    ["\nCONVERSATION HISTORY ROLE: USER\n\nUser query:\n" ++ userPrompt ++ "\n"] st

/-! Specification-side observation helpers and concrete fixtures used to
instantiate the theorems below. -/

/-- The module state after a prefix of a dispatch batch has executed (the
state threading of the sequential loop, expressed as a fold). -/
def stateAfterCalls (fm : String → Option Handler) (env : Env) (calls : List Value)
    (st : GState) : GState :=
  calls.foldl (fun s c => (execCallWith fm env c s).2) st

/-- Whether one completion attempt fails (is retried): a transport error, an
empty reply, or a reply whose extracted content does not parse. -/
def attemptFails (parse : String → Except String Value) (a : Attempt) : Bool :=
  match a with
  | .transportError _ => true
  | .reply content =>
    let rawReply := rawReplyOf content
    trimS rawReply == "No response" ||
      (match parse (extractJsonContent rawReply) with
       | .ok _ => false
       | .error _ => true)

/-- A benign store: every query succeeds with `null` data, no rows, no
write errors. -/
def trivEnv : Env :=
  { execQuery := fun _ => (Value.vnull, Value.vnull),
    knowledgeRead := fun _ => .rows [],
    knowledgeWrite := fun _ => Value.vnull,
    nowISO := "2026-01-01T00:00:00.000Z" }

/-- A transport that always throws. -/
def att0 : ℕ → Attempt := fun _ => .transportError ("boom")

/-- A parse oracle that always rejects. -/
def parse0 : String → Except String Value := fun _ => .error ("nope")

/-- A transport whose first reply does not parse and whose second does. -/
def attRetry : ℕ → Attempt := fun k =>
  if k = 0 then .reply (some ("not json")) else .reply (some ("\x7b\"answer\":\"ok\"\x7d"))

/-- A parse oracle accepting exactly the second reply above. -/
def parseRetry : String → Except String Value := fun s =>
  if s == "\x7b\"answer\":\"ok\"\x7d" then .ok (.vobj [("answer", .vstr "ok")])
  else .error ("SyntaxError: Unexpected token")

/-- A dispatch request with an unsupported `action` value. -/
def truncCall : Value :=
  .vobj [("function", .vstr "dynamicSupabaseOperation"),
         ("parameters", .vobj [("from", .vstr "todo_list"), ("action", .vstr "truncate")])]

/-- An `update` descriptor carrying no `filters` field. -/
def updNoFilter : Value :=
  .vobj [("from", .vstr "todo_list"), ("action", .vstr "update"),
         ("data", .vobj [("status", .vstr "completed")])]

/-- A synthesis request with an explicitly provided confidence of 0. -/
def synthP0 : Value :=
  .vobj [("topic", .vstr "apples"), ("content", .vstr "c"), ("confidence", .vnum 0)]

/-- A synthesis request with an explicitly provided confidence of 2. -/
def synthP2 : Value :=
  .vobj [("topic", .vstr "apples"), ("content", .vstr "c"), ("confidence", .vnum 2)]

/-- A store whose `specializations` lookup finds the `secretary` row. -/
def specEnv : Env :=
  { execQuery := fun _ =>
      (Value.vobj [("id", .vstr "1"), ("name", .vstr "secretary"),
        ("instruction_text", .vstr "be helpful")], Value.vnull),
    knowledgeRead := fun _ => .rows [],
    knowledgeWrite := fun _ => Value.vnull,
    nowISO := "" }

/-- A decision sequence: switch specialization on round one, answer on round
two. -/
def specDecisions : ℕ → Value := fun i =>
  if i = 1 then
    .vobj [("reasoning", .vstr "switch"),
           ("function_calls", .varr [.vobj [("function", .vstr "setSpecialization"),
              ("parameters", .vobj [("specializationName", .vstr "secretary")])]])]
  else .vobj [("answer", .vstr "done"), ("function_calls", .varr [])]

/-- A decision that always requests one more function call. -/
def callDecision : Value :=
  .vobj [("reasoning", .vstr "r"),
         ("function_calls", .varr [.vobj [("function", .vstr "nosuch"),
            ("parameters", .vobj [])]])]

/-- A registry exposing the part_000 handler `getDatabaseInfo` to the
dispatcher. -/
def fmInfo : String → Option Handler := fun n =>
  if n = "getDatabaseInfo" then some getDatabaseInfo else none

/-- A store whose every query fails with message `down`. -/
def errEnv : Env :=
  { execQuery := fun _ => (Value.vnull, Value.vobj [("message", .vstr "down")]),
    knowledgeRead := fun _ => .rows [],
    knowledgeWrite := fun _ => Value.vnull,
    nowISO := "" }

/-- A dispatch request naming `getDatabaseInfo`. -/
def infoCall : Value :=
  .vobj [("function", .vstr "getDatabaseInfo"),
         ("parameters", .vobj [("tableName", .vstr "todo_list")])]

/-- A stored snippet whose topic matches the first retrieval keyword. -/
def snipA : Snippet :=
  { id := .vstr "a", topic := "Apple Pie", content := "tasty",
    confidence := 1, related_entities := .vobj [], rest := [] }

/-- A stored snippet with more keyword matches and higher confidence. -/
def snipB : Snippet :=
  { id := .vstr "b", topic := "Rocks", content := "apple rocks",
    confidence := 2, related_entities := .vobj [], rest := [] }

/-- A store returning the two snippets above for every knowledge read. -/
def kEnv : Env :=
  { execQuery := fun _ => (Value.vnull, Value.vnull),
    knowledgeRead := fun _ => .rows [snipA, snipB],
    knowledgeWrite := fun _ => Value.vnull,
    nowISO := "" }

/-- A retrieval request whose query tokenizes to `apple`, `rocks` (the
token `pie` is too short). -/
def kParams : Value := .vobj [("query", .vstr "apple pie rocks")]

lemma agentLoop_iterationsUsed_le (d : ℕ → Value) (env : Env) :
    ∀ (fuel iters : ℕ) (hist : List String) (st : GState),
      (agentLoop d env fuel iters hist st).iterationsUsed ≤ iters + fuel := by
  intro fuel
  induction fuel with
  | zero => intro iters hist st; exact Nat.le_refl _
  | succ n ih =>
    intro iters hist st
    simp only [agentLoop]
    split
    · exact le_trans (ih (iters + 1) _ _) (by omega)
    · exact (show iters + 1 ≤ iters + (n + 1) by omega)

lemma agentLoop_all_calls (d : ℕ → Value) (env : Env)
    (hd : ∀ i, hasFunctionCalls (d i) = true) :
    ∀ (fuel iters : ℕ) (hist : List String) (st : GState),
      (agentLoop d env fuel iters hist st).answer = .vstr degradationAnswer ∧
      (agentLoop d env fuel iters hist st).iterationsUsed = iters + fuel := by
  intro fuel
  induction fuel with
  | zero => intro iters hist st; exact ⟨rfl, rfl⟩
  | succ n ih =>
    intro iters hist st
    simp only [agentLoop, hd (iters + 1), if_true]
    refine ⟨(ih (iters + 1) _ _).1, ?_⟩
    rw [(ih (iters + 1) _ _).2]
    omega

/-- C1: the agent loop performs at most `MAX_ITERATIONS = 5` completion
rounds for every decision sequence, and when every decision requests more
function calls it returns the fixed degradation answer after exactly 5
rounds instead of raising an error. -/
theorem C1_agent_loop_bounded (decisions : ℕ → Value) (env : Env)
    (userPrompt : String) (st : GState) :
    (runAIAgent decisions env userPrompt st).iterationsUsed ≤ MAX_ITERATIONS ∧
    ((∀ i, hasFunctionCalls (decisions i) = true) →
      (runAIAgent decisions env userPrompt st).answer = .vstr degradationAnswer ∧
      (runAIAgent decisions env userPrompt st).iterationsUsed = MAX_ITERATIONS) := by
  constructor
  · exact agentLoop_iterationsUsed_le decisions env MAX_ITERATIONS 0 _ st
  · intro hall
    exact agentLoop_all_calls decisions env hall MAX_ITERATIONS 0 _ st

/-- Witness for C1 at a concrete always-calling decision sequence. -/
theorem C1_agent_loop_bounded_witness :
    (runAIAgent (fun _ => callDecision) trivEnv ("list my todos") initialState).answer
        = .vstr degradationAnswer ∧
    (runAIAgent (fun _ => callDecision) trivEnv ("list my todos") initialState).iterationsUsed
        = MAX_ITERATIONS :=
  (C1_agent_loop_bounded (fun _ => callDecision) trivEnv ("list my todos") initialState).2
    (fun _ => rfl)

lemma executeFunctionsWith_length (fm : String → Option Handler) (env : Env) :
    ∀ (calls : List Value) (st : GState),
      ((executeFunctionsWith fm env calls st).1).length = calls.length := by
  intro calls
  induction calls with
  | nil => intro st; rfl
  | cons c cs ih =>
    intro st
    simp only [executeFunctionsWith, List.length_cons, ih]

lemma executeFunctionsWith_getElem (fm : String → Option Handler) (env : Env) :
    ∀ (calls : List Value) (st : GState) (k : ℕ),
      ((executeFunctionsWith fm env calls st).1)[k]? =
        (calls[k]?).map (fun c =>
          (execCallWith fm env c (stateAfterCalls fm env (calls.take k) st)).1) := by
  intro calls
  induction calls with
  | nil => intro st k; rfl
  | cons c cs ih =>
    intro st k
    cases k with
    | zero =>
      simp [executeFunctionsWith, stateAfterCalls]
    | succ n =>
      simp only [executeFunctionsWith, List.getElem?_cons_succ, List.take_succ_cons,
        stateAfterCalls, List.foldl_cons]
      exact ih _ n

/-- C2: the dispatcher processes the requested calls sequentially in the
order given (the k-th recorded result is the k-th call executed in the
state left by the previous calls), produces exactly one result per request,
and an unknown `action` value such as `truncate` yields a failed result
whose error message names the unsupported action, leaves the module state
unchanged, and does not abort the remaining calls of the batch. -/
theorem C2_dispatch_sequential (env : Env) (calls : List Value) (st : GState) :
    ((executeFunctions env calls st).1).length = calls.length ∧
    (∀ k : ℕ, ((executeFunctions env calls st).1)[k]? =
      (calls[k]?).map (fun c =>
        (execCallWith functionMap env c (stateAfterCalls functionMap env (calls.take k) st)).1)) ∧
    (∀ (cs : List Value) (st2 : GState),
      (executeFunctions env (truncCall :: cs) st2).1 =
        (execCallWith functionMap env truncCall st2).1 :: (executeFunctions env cs st2).1) ∧
    (∀ st2 : GState, (execCallWith functionMap env truncCall st2).2 = st2) ∧
    (∀ st2 : GState,
      (execCallWith functionMap env truncCall st2).1.getField "success" = .vbool false) ∧
    (∀ st2 : GState,
      (execCallWith functionMap env truncCall st2).1.getField "error"
        = .vstr ("Unsupported action: truncate")) := by
  refine ⟨executeFunctionsWith_length functionMap env calls st,
    executeFunctionsWith_getElem functionMap env calls st,
    ?_, fun st2 => rfl, fun st2 => rfl, fun st2 => rfl⟩
  intro cs st2
  simp only [executeFunctions, executeFunctionsWith]
  rfl

lemma aiRequestLoop_all_fail (att : ℕ → Attempt) (parse : String → Except String Value) :
    ∀ (fuel retryCount : ℕ) (le : Option String),
      (∀ k, retryCount ≤ k → k < retryCount + fuel → attemptFails parse (att k) = true) →
      ∃ le2, aiRequestLoop att parse fuel retryCount le = (fallbackDecision le2, retryCount + fuel) := by
  intro fuel
  induction fuel with
  | zero => intro rc le _; exact ⟨le, rfl⟩
  | succ n ih =>
    intro rc le hf
    have h0 : attemptFails parse (att rc) = true := hf rc (Nat.le_refl _) (by omega)
    have harith : rc + (n + 1) = (rc + 1) + n := by omega
    rw [harith]
    cases hatt : att rc with
    | transportError msg =>
      obtain ⟨le2, h2⟩ := ih (rc + 1) (some msg) (fun k hk1 hk2 => hf k (by omega) (by omega))
      refine ⟨le2, ?_⟩
      simp only [aiRequestLoop, hatt]
      exact h2
    | reply content =>
      by_cases htrim : trimS (rawReplyOf content) = "No response"
      · obtain ⟨le2, h2⟩ := ih (rc + 1) le (fun k hk1 hk2 => hf k (by omega) (by omega))
        refine ⟨le2, ?_⟩
        simp only [aiRequestLoop, hatt]
        rw [if_pos htrim]
        exact h2
      · have hperr : ∃ m, parse (extractJsonContent (rawReplyOf content)) = .error m := by
          rw [hatt] at h0
          cases hp : parse (extractJsonContent (rawReplyOf content)) with
          | ok v =>
            simp only [attemptFails, hp, Bool.or_false] at h0
            exact absurd (by simpa using h0) htrim
          | error m => exact ⟨m, rfl⟩
        obtain ⟨m, hm⟩ := hperr
        obtain ⟨le2, h2⟩ := ih (rc + 1) (some m) (fun k hk1 hk2 => hf k (by omega) (by omega))
        refine ⟨le2, ?_⟩
        simp only [aiRequestLoop, hatt]
        rw [if_neg htrim]
        simp only [hm]
        exact h2

/-- C3: when all `MAX_RETRIES = 5` completion attempts fail (transport
error, empty reply, or parse failure), `makeAIRequest` does not throw but
returns the fallback decision: its `answer` carries the diagnostic message;
its `function_calls` field is absent (`undefined`), which the loop guard
treats as no calls, so the orchestrator terminates on that iteration. -/
theorem C3_retry_exhaustion (att : ℕ → Attempt) (parse : String → Except String Value)
    (hfail : ∀ k, k < MAX_RETRIES → attemptFails parse (att k) = true) :
    ∃ lastErr : Option String,
      makeAIRequest att parse = (fallbackDecision lastErr, MAX_RETRIES) ∧
      (fallbackDecision lastErr).getField "answer" =
        .vstr ("Error: Failed to communicate with AI service after 5 attempts. Last error: "
          ++ lastErrMsg lastErr) ∧
      (fallbackDecision lastErr).getField "function_calls" = .vundefined ∧
      hasFunctionCalls (fallbackDecision lastErr) = false ∧
      (∀ (decisions : ℕ → Value) (env : Env) (prompt : String) (st2 : GState),
        decisions 1 = fallbackDecision lastErr →
        (runAIAgent decisions env prompt st2).iterationsUsed = 1 ∧
        (runAIAgent decisions env prompt st2).answer = (fallbackDecision lastErr).getField "answer") := by
  obtain ⟨le2, h2⟩ := aiRequestLoop_all_fail att parse MAX_RETRIES 0 none
    (fun k hk1 hk2 => hfail k (by omega))
  refine ⟨le2, h2, rfl, rfl, rfl, ?_⟩
  intro decisions env prompt st2 hdec
  constructor
  · simp only [runAIAgent, agentLoop, hdec]
    rfl
  · simp only [runAIAgent, agentLoop, hdec]
    rfl

/-- Witness for C3 at an always-throwing transport. -/
theorem C3_retry_exhaustion_witness :
    ∃ lastErr : Option String,
      makeAIRequest att0 parse0 = (fallbackDecision lastErr, MAX_RETRIES) ∧
      (fallbackDecision lastErr).getField "answer" =
        .vstr ("Error: Failed to communicate with AI service after 5 attempts. Last error: "
          ++ lastErrMsg lastErr) ∧
      (fallbackDecision lastErr).getField "function_calls" = .vundefined ∧
      hasFunctionCalls (fallbackDecision lastErr) = false ∧
      (∀ (decisions : ℕ → Value) (env : Env) (prompt : String) (st2 : GState),
        decisions 1 = fallbackDecision lastErr →
        (runAIAgent decisions env prompt st2).iterationsUsed = 1 ∧
        (runAIAgent decisions env prompt st2).answer = (fallbackDecision lastErr).getField "answer") :=
  C3_retry_exhaustion att0 parse0 (fun _ _ => rfl)

/-- Counterexample to C3 as stated: after exhaustion the returned decision
does not carry an empty `function_calls` list — the field is absent. -/
theorem C3_fallback_calls_absent :
    (makeAIRequest att0 parse0).1.getField "function_calls" ≠ .varr [] ∧
    (makeAIRequest att0 parse0).1.getField "function_calls" = .vundefined := by
  constructor
  · intro h
    exact Value.noConfusion (show Value.vundefined = Value.varr [] from h)
  · rfl

lemma fenceCaptureAux_some_listIncludes :
    ∀ (cs : List Char) (res : List Char), fenceCaptureAux cs = some res →
      listIncludes cs tick3 = true := by
  intro cs
  induction cs with
  | nil => intro res h; exact absurd h (by simp [fenceCaptureAux])
  | cons c t ih =>
    intro res h
    by_cases hp : tick3.isPrefixOf (c :: t) = true
    · simp [listIncludes, hp]
    · rw [fenceCaptureAux, if_neg hp] at h
      simp [listIncludes, ih res h]

/-- C4: the decision is extracted by (1) replacing the reply with the
trimmed interior of a fenced code block when the regex finds one with
non-empty content, then (2) slicing from the first `\x7b` to the last `\x7d`
inclusive when both exist in that order, then (3) handing the result to
`JSON.parse`; a parse failure is a retryable condition — the client moves to
the next attempt instead of throwing. -/
theorem C4_extraction_algorithm :
    (∀ raw : String, extractJsonContent raw = braceSlice (fenceStage raw)) ∧
    (∀ s : String, strIncludes s ("```") = false → fenceStage s = s) ∧
    (∀ (s cap : String), fenceCapture s = some cap → cap ≠ "" → fenceStage s = trimS cap) ∧
    (∀ (s : String) (i j : ℕ), firstIdxOf s.data '{' = some i → lastIdxOf s.data '}' = some j →
      i < j → braceSlice s = String.mk ((s.data.take (j + 1)).drop i)) ∧
    (∀ s : String, firstIdxOf s.data '{' = none → braceSlice s = s) ∧
    extractJsonContent ("Sure! ```json\n\x7b\"answer\":\"hi\"\x7d\n``` done") = "\x7b\"answer\":\"hi\"\x7d" ∧
    extractJsonContent ("preamble \x7b\"answer\":\"hi\"\x7d trailing") = "\x7b\"answer\":\"hi\"\x7d" ∧
    (∀ (att : ℕ → Attempt) (parse : String → Except String Value)
       (c0 c1 : Option String) (m : String) (v : Value),
      att 0 = .reply c0 → att 1 = .reply c1 →
      trimS (rawReplyOf c0) ≠ "No response" →
      parse (extractJsonContent (rawReplyOf c0)) = .error m →
      trimS (rawReplyOf c1) ≠ "No response" →
      parse (extractJsonContent (rawReplyOf c1)) = .ok v →
      makeAIRequest att parse = (v, 2)) := by
  refine ⟨fun raw => rfl, ?_, ?_, ?_, ?_, rfl, rfl, ?_⟩
  · intro s h
    simp [fenceStage, h]
  · intro s cap hc hne
    have hinc : strIncludes s ("```") = true := fenceCaptureAux_some_listIncludes s.data cap.data
      (by simpa [fenceCapture, String.mk] using congrArg (Option.map String.data) hc)
    simp [fenceStage, hinc, hc, hne]
  · intro s i j h1 h2 hij
    simp only [braceSlice, h1, h2]
    rw [if_pos hij]
  · intro s h
    simp only [braceSlice, h]
  · intro att parse c0 c1 m v h0 h1 ht0 hp0 ht1 hp1
    simp only [makeAIRequest, MAX_RETRIES, aiRequestLoop, h0]
    rw [if_neg ht0]
    simp only [hp0, aiRequestLoop, h1]
    rw [if_neg ht1]
    simp only [hp1]

/-- Witness for C4: a first reply that fails to parse is retried, and the
second reply's parsed decision is returned after exactly two attempts. -/
theorem C4_extraction_algorithm_witness :
    makeAIRequest attRetry parseRetry = (.vobj [("answer", .vstr "ok")], 2) :=
  C4_extraction_algorithm.2.2.2.2.2.2.2 attRetry parseRetry
    (some ("not json")) (some ("\x7b\"answer\":\"ok\"\x7d"))
    ("SyntaxError: Unexpected token") (.vobj [("answer", .vstr "ok")])
    rfl rfl (by decide) rfl (by decide) rfl

/-- C5 (amended): for `update` and `delete`, requesting a filter operator
outside the supported set (`eq`/`neq`/`in` for update, `eq`/`in` for
delete) is rejected with a thrown `Unsupported filter operator` error,
surfaced as a failed result with the module state unchanged and never
retried; however a descriptor *without* FilterClauses is not rejected: the
built chain simply carries no filter step, so the operation executes
unfiltered against the whole table. -/
theorem C5_update_delete_filters :
    (∀ filter : Value,
      (filter.getField "operator").strictEqStr "eq" = false →
      (filter.getField "operator").strictEqStr "neq" = false →
      (filter.getField "operator").strictEqStr "in" = false →
      updateFilterStep filter =
        .error ("Unsupported filter operator: " ++ jsToString (filter.getField "operator"))) ∧
    (∀ filter : Value,
      (filter.getField "operator").strictEqStr "eq" = false →
      (filter.getField "operator").strictEqStr "in" = false →
      deleteFilterStep filter =
        .error ("Unsupported filter operator: " ++ jsToString (filter.getField "operator"))) ∧
    (∀ (env : Env) (st : GState) (params fromV col vv op : Value),
      params.getField "from" = fromV → fromV.truthy = true →
      params.getField "action" = .vstr "update" →
      params.getField "filters" = .varr [.vobj [("column", col), ("operator", op), ("value", vv)]] →
      op.strictEqStr "eq" = false → op.strictEqStr "neq" = false → op.strictEqStr "in" = false →
      dynamicSupabaseOperation env params st =
        (.vobj [("success", .vbool false),
          ("error", .vstr ("Unsupported filter operator: " ++ jsToString op))], st)) ∧
    (∀ (env : Env) (st : GState) (params fromV col vv op : Value),
      params.getField "from" = fromV → fromV.truthy = true →
      params.getField "action" = .vstr "delete" →
      params.getField "filters" = .varr [.vobj [("column", col), ("operator", op), ("value", vv)]] →
      op.strictEqStr "eq" = false → op.strictEqStr "in" = false →
      dynamicSupabaseOperation env params st =
        (.vobj [("success", .vbool false),
          ("error", .vstr ("Unsupported filter operator: " ++ jsToString op))], st)) ∧
    (∀ fromV dataV : Value,
      dynSupaBuild (.vobj [("from", fromV), ("action", .vstr "update"), ("data", dataV)]) =
        .ok [.updateData dataV]) ∧
    (∀ fromV : Value,
      dynSupaBuild (.vobj [("from", fromV), ("action", .vstr "delete")]) = .ok [.deleteRows]) := by
  have hupd : ∀ filter : Value,
      (filter.getField "operator").strictEqStr "eq" = false →
      (filter.getField "operator").strictEqStr "neq" = false →
      (filter.getField "operator").strictEqStr "in" = false →
      updateFilterStep filter =
        .error ("Unsupported filter operator: " ++ jsToString (filter.getField "operator")) := by
    intro f h1 h2 h3
    simp only [updateFilterStep, h1, h2, h3, Bool.false_eq_true, if_false]
  have hdel : ∀ filter : Value,
      (filter.getField "operator").strictEqStr "eq" = false →
      (filter.getField "operator").strictEqStr "in" = false →
      deleteFilterStep filter =
        .error ("Unsupported filter operator: " ++ jsToString (filter.getField "operator")) := by
    intro f h1 h2
    simp only [deleteFilterStep, h1, h2, Bool.false_eq_true, if_false]
  refine ⟨hupd, hdel, ?_, ?_, fun fromV dataV => rfl, fun fromV => rfl⟩
  · intro env st params fromV col vv op hf hft ha hfil h1 h2 h3
    have hstep : updateFilterStep (.vobj [("column", col), ("operator", op), ("value", vv)]) =
        .error ("Unsupported filter operator: " ++ jsToString op) := by
      have hop : (Value.vobj [("column", col), ("operator", op), ("value", vv)]).getField "operator" = op := rfl
      rw [hupd _ (by rw [hop]; exact h1) (by rw [hop]; exact h2) (by rw [hop]; exact h3), hop]
    simp only [dynamicSupabaseOperation, dynSupaBuild, buildUpdate, foldSteps, asForEachArray,
      foldStepsList, hf, hft, ha, hfil, hstep]
    rfl
  · intro env st params fromV col vv op hf hft ha hfil h1 h2
    have hstep : deleteFilterStep (.vobj [("column", col), ("operator", op), ("value", vv)]) =
        .error ("Unsupported filter operator: " ++ jsToString op) := by
      have hop : (Value.vobj [("column", col), ("operator", op), ("value", vv)]).getField "operator" = op := rfl
      rw [hdel _ (by rw [hop]; exact h1) (by rw [hop]; exact h2), hop]
    simp only [dynamicSupabaseOperation, dynSupaBuild, buildDelete, foldSteps, asForEachArray,
      foldStepsList, hf, hft, ha, hfil, hstep]
    rfl

/-- Witness for C5 at a concrete unsupported operator (`like` on update,
`gt` on delete). -/
theorem C5_update_delete_filters_witness :
    dynamicSupabaseOperation trivEnv
      (.vobj [("from", .vstr "todo_list"), ("action", .vstr "update"),
        ("data", .vobj [("status", .vstr "done")]),
        ("filters", .varr [.vobj [("column", .vstr "id"), ("operator", .vstr "like"),
          ("value", .vnum 1)]])]) initialState =
      (.vobj [("success", .vbool false),
        ("error", .vstr ("Unsupported filter operator: like"))], initialState) ∧
    dynamicSupabaseOperation trivEnv
      (.vobj [("from", .vstr "todo_list"), ("action", .vstr "delete"),
        ("filters", .varr [.vobj [("column", .vstr "id"), ("operator", .vstr "gt"),
          ("value", .vnum 1)]])]) initialState =
      (.vobj [("success", .vbool false),
        ("error", .vstr ("Unsupported filter operator: gt"))], initialState) :=
  ⟨C5_update_delete_filters.2.2.1 trivEnv initialState _ (.vstr "todo_list")
      (.vstr "id") (.vnum 1) (.vstr "like") rfl rfl rfl rfl rfl rfl rfl,
   C5_update_delete_filters.2.2.2.1 trivEnv initialState _ (.vstr "todo_list")
      (.vstr "id") (.vnum 1) (.vstr "gt") rfl rfl rfl rfl rfl rfl⟩

/-- Counterexample to C5 as stated: an `update` descriptor with no
FilterClauses is not rejected — it succeeds against a store that accepts
the unfiltered chain, and the built chain carries no filter step. -/
theorem C5_unfiltered_update_not_rejected :
    (dynamicSupabaseOperation trivEnv updNoFilter initialState).1.getField "success" = .vbool true ∧
    dynSupaBuild updNoFilter = .ok [.updateData (.vobj [("status", .vstr "completed")])] :=
  ⟨rfl, rfl⟩

set_option linter.unusedTactic false in
lemma scoreFold (topicL contentL : String) :
    ∀ (ws : List String) (acc : ℚ),
      ws.foldl (fun score w =>
        let score2 := if strIncludes topicL w then score + 3 else score
        if strIncludes contentL w then score2 + 1 else score2) acc
      = acc + 3 * ((ws.filter (fun w => strIncludes topicL w)).length : ℚ)
            + ((ws.filter (fun w => strIncludes contentL w)).length : ℚ) := by
  intro ws
  induction ws with
  | nil => intro acc; simp
  | cons w t ih =>
    intro acc
    simp only [List.foldl_cons, List.filter_cons]
    rcases hT : strIncludes topicL w with _ | _ <;> rcases hC : strIncludes contentL w with _ | _ <;>
      simp [hT, hC, ih] <;> push_cast <;> ring

lemma scoreSnippet_formula (ws : List String) (s : Snippet) :
    scoreSnippet ws s =
      (3 * ((ws.filter (fun w => strIncludes (toLowerS s.topic) w)).length : ℚ)
        + ((ws.filter (fun w => strIncludes (toLowerS s.content) w)).length : ℚ)) * s.confidence := by
  have h := scoreFold (toLowerS s.topic) (toLowerS s.content) ws 0
  have h2 : scoreSnippet ws s
      = (0 + 3 * ((ws.filter (fun w => strIncludes (toLowerS s.topic) w)).length : ℚ)
        + ((ws.filter (fun w => strIncludes (toLowerS s.content) w)).length : ℚ)) * s.confidence := by
    rw [scoreSnippet]
    exact congrArg (· * s.confidence) h
  rw [h2]
  ring

lemma jsSliceTo_natCast {α : Type} (l : List α) (m : ℕ) :
    jsSliceTo l (.vnum (m : ℚ)) = l.take m := by
  simp only [jsSliceTo, jsTruncInt]
  have h1 : ¬((m : ℚ) < 0) := not_lt.mpr (by positivity)
  rw [if_neg h1]
  simp

lemma sortScored_sorted (l : List (Snippet × ℚ)) : List.Sorted scoredRel (sortScored l) :=
  List.sorted_insertionSort scoredRel l

/-- C6: for a query with at least one token longer than 3 characters, each
returned snippet's relevance score is (3 × topic-token matches + 1 ×
content-token matches) × confidence, and the returned data is the scored
candidate list sorted by this score descending and truncated to
`params.limit || 5`. -/
theorem C6_retrieval_relevance (env : Env) (st : GState) (params : Value) (q : String)
    (rows : List Snippet) (m : ℕ)
    (hq : params.getField "query" = .vstr q)
    (hwords : tokenizeQuery q ≠ [])
    (hrows : env.knowledgeRead (retrieveSteps (tokenizeQuery q)) = .rows rows)
    (hlimit : Value.jsOr (params.getField "limit") (.vnum 5) = .vnum (m : ℚ)) :
    (retrieveRelevantKnowledge env params st).1 =
      .vobj [("success", .vbool true),
        ("data", .varr (((sortScored (rows.map (fun s =>
          (s, scoreSnippet (tokenizeQuery q) s)))).take m).map scoredToValue))] ∧
    (∀ s ∈ rows, scoreSnippet (tokenizeQuery q) s =
      (3 * (((tokenizeQuery q).filter (fun w => strIncludes (toLowerS s.topic) w)).length : ℚ)
        + (((tokenizeQuery q).filter (fun w => strIncludes (toLowerS s.content) w)).length : ℚ))
        * s.confidence) ∧
    List.Sorted scoredRel ((sortScored (rows.map (fun s =>
      (s, scoreSnippet (tokenizeQuery q) s)))).take m) ∧
    ((sortScored (rows.map (fun s => (s, scoreSnippet (tokenizeQuery q) s)))).take m).length ≤ m := by
  have hne : q ≠ "" := by
    intro h
    apply hwords
    rw [h]
    rfl
  have htr : (Value.vstr q).truthy = true := by simp [Value.truthy, hne]
  have hisEmpty : (tokenizeQuery q).isEmpty = false := by
    cases hcase : tokenizeQuery q with
    | nil => exact absurd hcase hwords
    | cons a b => rfl
  refine ⟨?_, fun s _ => scoreSnippet_formula _ s,
    List.Pairwise.sublist (List.take_sublist _ _) (sortScored_sorted _),
    by rw [List.length_take]; exact min_le_left _ _⟩
  simp only [retrieveRelevantKnowledge, hq]
  rw [if_neg (not_not_intro htr)]
  simp only [hisEmpty, Bool.false_eq_true, if_false, hrows]
  rw [hlimit, jsSliceTo_natCast]

/-- Witness for C6 at a two-snippet store and the query `apple pie rocks`. -/
theorem C6_retrieval_relevance_witness :
    (retrieveRelevantKnowledge kEnv kParams initialState).1 =
      .vobj [("success", .vbool true),
        ("data", .varr (((sortScored ([snipA, snipB].map (fun s =>
          (s, scoreSnippet (tokenizeQuery "apple pie rocks") s)))).take 5).map scoredToValue))] :=
  (C6_retrieval_relevance kEnv initialState kParams ("apple pie rocks") [snipA, snipB] 5
    rfl (by decide) rfl (by rw [show ((5 : ℕ) : ℚ) = (5 : ℚ) from by norm_num]; rfl)).1

/-- C7 (amended): the stored confidence is `params.confidence || 0.7` in
both the update and the insert branch: the provided value whenever it is
truthy (in particular with no clamping to [0,1]), and the 0.7 default when
the confidence is omitted — or provided as the falsy number 0. -/
theorem C7_synthesis_confidence (env : Env) (st : GState) (params : Value) (rows : List Snippet)
    (ht : (params.getField "topic").truthy = true)
    (hc : (params.getField "content").truthy = true)
    (hrows : env.knowledgeRead (synthSearchSteps (params.getField "topic")) = .rows rows)
    (hw : ∀ qy : SupaQuery, (env.knowledgeWrite qy).truthy = false) :
    ((((synthesizeKnowledge env params st).1.getField "data").getField "knowledge").getField
        "confidence") = Value.jsOr (params.getField "confidence") (.vnum (7/10)) ∧
    ((params.getField "confidence").truthy = true →
      ((((synthesizeKnowledge env params st).1.getField "data").getField "knowledge").getField
        "confidence") = params.getField "confidence") ∧
    (params.getField "confidence" = .vundefined →
      ((((synthesizeKnowledge env params st).1.getField "data").getField "knowledge").getField
        "confidence") = .vnum (7/10)) ∧
    (params.getField "confidence" = .vnum 0 →
      ((((synthesizeKnowledge env params st).1.getField "data").getField "knowledge").getField
        "confidence") = .vnum (7/10)) := by
  have hmain : ((((synthesizeKnowledge env params st).1.getField "data").getField
      "knowledge").getField "confidence") = Value.jsOr (params.getField "confidence") (.vnum (7/10)) := by
    simp only [synthesizeKnowledge]
    rw [if_neg (by simp [ht, hc])]
    cases rows with
    | nil =>
      simp only [hrows]
      rw [if_neg (by simp [hw])]
      rfl
    | cons s0 rest =>
      simp only [hrows]
      rw [if_neg (by simp [hw])]
      rfl
  refine ⟨hmain, ?_, ?_, ?_⟩
  · intro h
    rw [hmain]
    simp [Value.jsOr, h]
  · intro h
    rw [hmain, h]
    rfl
  · intro h
    rw [hmain, h]
    simp [Value.jsOr, Value.truthy]

/-- Witness for C7: a provided confidence of 2 is stored as 2 (truthy, so
no default and no clamping). -/
theorem C7_synthesis_confidence_witness :
    ((((synthesizeKnowledge trivEnv synthP2 initialState).1.getField "data").getField
        "knowledge").getField "confidence") = synthP2.getField "confidence" :=
  (C7_synthesis_confidence trivEnv initialState synthP2 [] rfl rfl rfl (fun _ => rfl)).2.1 (by rfl)

/-- Counterexample to C7 as stated: an explicitly provided confidence of 0
is stored as the 0.7 default, not as 0. -/
theorem C7_confidence_zero_stored_as_default :
    ((((synthesizeKnowledge trivEnv synthP0 initialState).1.getField "data").getField
        "knowledge").getField "confidence") = .vnum (7/10) ∧
    Value.vnum (7/10) ≠ Value.vnum 0 := by
  refine ⟨rfl, ?_⟩
  intro h
  injection h with h2
  norm_num at h2

/-- C8 (amended): exactly one audit record is appended to the interactions
log by each *successful* retrieval whose query has at least one token
longer than 3 characters, and by each *successful* synthesis; a retrieval
whose query yields no such token returns early without logging, and calls
that end in a failed result (store read or write errors) log nothing. -/
theorem C8_audit_log (env : Env) (st : GState) (params : Value) :
    (∀ (q : String) (rows : List Snippet),
      params.getField "query" = .vstr q → tokenizeQuery q ≠ [] →
      env.knowledgeRead (retrieveSteps (tokenizeQuery q)) = .rows rows →
      (retrieveRelevantKnowledge env params st).2.interactionsLog
        = st.interactionsLog ++ [retrieveAuditRecord params
            (jsSliceTo (sortScored (rows.map (fun s => (s, scoreSnippet (tokenizeQuery q) s))))
              (Value.jsOr (params.getField "limit") (.vnum 5)))]) ∧
    (∀ q : String, params.getField "query" = .vstr q → tokenizeQuery q = [] →
      (retrieveRelevantKnowledge env params st).2.interactionsLog = st.interactionsLog) ∧
    (∀ (q : String) (m : String),
      params.getField "query" = .vstr q → tokenizeQuery q ≠ [] →
      env.knowledgeRead (retrieveSteps (tokenizeQuery q)) = .err m →
      (retrieveRelevantKnowledge env params st).2.interactionsLog = st.interactionsLog) ∧
    (∀ rows : List Snippet,
      (params.getField "topic").truthy = true → (params.getField "content").truthy = true →
      env.knowledgeRead (synthSearchSteps (params.getField "topic")) = .rows rows →
      (∀ qy : SupaQuery, (env.knowledgeWrite qy).truthy = false) →
      (synthesizeKnowledge env params st).2.interactionsLog
        = st.interactionsLog ++ [synthAuditRecord params (decide (0 < rows.length))]) ∧
    (∀ m : String,
      (params.getField "topic").truthy = true → (params.getField "content").truthy = true →
      env.knowledgeRead (synthSearchSteps (params.getField "topic")) = .err m →
      (synthesizeKnowledge env params st).2.interactionsLog = st.interactionsLog) ∧
    (∀ rows : List Snippet,
      (params.getField "topic").truthy = true → (params.getField "content").truthy = true →
      env.knowledgeRead (synthSearchSteps (params.getField "topic")) = .rows rows →
      (∀ qy : SupaQuery, (env.knowledgeWrite qy).truthy = true) →
      (synthesizeKnowledge env params st).2.interactionsLog = st.interactionsLog) := by
  refine ⟨?_, ?_, ?_, ?_, ?_, ?_⟩
  · intro q rows hq hwords hrows
    have hne : q ≠ "" := by
      intro h
      apply hwords
      rw [h]
      rfl
    have htr : (Value.vstr q).truthy = true := by simp [Value.truthy, hne]
    have hisEmpty : (tokenizeQuery q).isEmpty = false := by
      cases hcase : tokenizeQuery q with
      | nil => exact absurd hcase hwords
      | cons a b => rfl
    simp only [retrieveRelevantKnowledge, hq]
    rw [if_neg (not_not_intro htr)]
    simp only [hisEmpty, Bool.false_eq_true, if_false, hrows]
  · intro q hq htok
    by_cases hq0 : q = ""
    · simp only [retrieveRelevantKnowledge, hq, hq0]
      rfl
    · have htr : (Value.vstr q).truthy = true := by simp [Value.truthy, hq0]
      simp only [retrieveRelevantKnowledge, hq]
      rw [if_neg (not_not_intro htr)]
      simp only [htok]
      rfl
  · intro q m hq hwords hrows
    have hne : q ≠ "" := by
      intro h
      apply hwords
      rw [h]
      rfl
    have htr : (Value.vstr q).truthy = true := by simp [Value.truthy, hne]
    have hisEmpty : (tokenizeQuery q).isEmpty = false := by
      cases hcase : tokenizeQuery q with
      | nil => exact absurd hcase hwords
      | cons a b => rfl
    simp only [retrieveRelevantKnowledge, hq]
    rw [if_neg (not_not_intro htr)]
    simp only [hisEmpty, Bool.false_eq_true, if_false, hrows]
  · intro rows ht hc hrows hw
    simp only [synthesizeKnowledge]
    rw [if_neg (by simp [ht, hc])]
    cases rows with
    | nil =>
      simp only [hrows]
      rw [if_neg (by simp [hw])]
    | cons s0 rest =>
      simp only [hrows]
      rw [if_neg (by simp [hw])]
  · intro m ht hc hrows
    simp only [synthesizeKnowledge]
    rw [if_neg (by simp [ht, hc])]
    simp only [hrows]
  · intro rows ht hc hrows hw
    simp only [synthesizeKnowledge]
    rw [if_neg (by simp [ht, hc])]
    cases rows with
    | nil =>
      simp only [hrows]
      rw [if_pos (hw _)]
    | cons s0 rest =>
      simp only [hrows]
      rw [if_pos (hw _)]

/-- Witness for C8: the successful retrieval and the successful synthesis
each append exactly one audit record. -/
theorem C8_audit_log_witness :
    (retrieveRelevantKnowledge kEnv kParams initialState).2.interactionsLog
      = initialState.interactionsLog ++ [retrieveAuditRecord kParams
          (jsSliceTo (sortScored ([snipA, snipB].map (fun s =>
            (s, scoreSnippet (tokenizeQuery "apple pie rocks") s))))
            (Value.jsOr (kParams.getField "limit") (.vnum 5)))] ∧
    (synthesizeKnowledge trivEnv synthP0 initialState).2.interactionsLog
      = initialState.interactionsLog ++ [synthAuditRecord synthP0 (decide (0 < ([] : List Snippet).length))] :=
  ⟨(C8_audit_log kEnv initialState kParams).1 ("apple pie rocks") [snipA, snipB] rfl (by decide) rfl,
   (C8_audit_log trivEnv initialState synthP0).2.2.2.1 [] rfl rfl rfl (fun _ => rfl)⟩

/-- Counterexample to C8 as stated: a retrieval whose query has no token
longer than 3 characters is a knowledge-store call that appends no audit
record at all (the log stays empty), although it returns a success. -/
theorem C8_short_query_appends_nothing :
    (retrieveRelevantKnowledge trivEnv (.vobj [("query", .vstr "go to it")]) initialState).2.interactionsLog
      = [] ∧
    (retrieveRelevantKnowledge trivEnv (.vobj [("query", .vstr "go to it")]) initialState).1.getField
      "success" = .vbool true :=
  ⟨rfl, rfl⟩

/-- C9: the loop returns `\x7banswer, transcript, specialization\x7d`, but the
`specialization` field does not identify the active specialization by its
name.  After a successful `setSpecialization("secretary")` the module
variable holds the *name string* `"secretary"`, and the returned field is
`currentSpecialization.name` — a property access on a string — which
evaluates to `undefined`, not `"secretary"`.  Only the no-specialization
case behaves as claimed, returning the string `"none"`. -/
theorem C9_specialization_field_returns_undefined :
    (setSpecialization specEnv (.vobj [("specializationName", .vstr "secretary")])
        initialState).1.getField "success" = .vbool true ∧
    (setSpecialization specEnv (.vobj [("specializationName", .vstr "secretary")])
        initialState).2.currentSpecialization = .vstr "secretary" ∧
    (runAIAgent specDecisions specEnv ("switch to the secretary") initialState).answer
      = .vstr "done" ∧
    (runAIAgent specDecisions specEnv ("switch to the secretary") initialState).specialization
      = .vundefined ∧
    Value.vundefined ≠ Value.vstr "secretary" ∧
    (runAIAgent (fun _ => .vobj [("answer", .vstr "done")]) specEnv ("hi")
        initialState).specialization = .vstr "none" := by
  refine ⟨rfl, rfl, rfl, rfl, ?_, rfl⟩
  intro h
  exact Value.noConfusion h

lemma strictNeqFalse_iff (v : Value) : strictNeqFalse v = true ↔ v ≠ .vbool false := by
  cases v with
  | vbool b => cases b <;> simp [strictNeqFalse]
  | vundefined => simp [strictNeqFalse]
  | vnull => simp [strictNeqFalse]
  | vnum q => simp [strictNeqFalse]
  | vstr s => simp [strictNeqFalse]
  | varr l => simp [strictNeqFalse]
  | vobj f => simp [strictNeqFalse]

/-- C10: for a dispatched call whose handler returns normally, the recorded
success flag is true exactly when the handler's return value does not have
a `success` field strictly equal to `false`; in particular the part_000
handler `getDatabaseInfo` returning `\x7berror: "Failed to retrieve data."\x7d` —
no `success` field, an `error` field present — is recorded with
`success = true` and rendered as `Status: Success`. -/
theorem C10_success_flag (fm : String → Option Handler) (env : Env) (st : GState)
    (call : Value) (h : Handler) (r : Value) (st2 : GState)
    (hname : fm (jsToString (call.getField "function")) = some h)
    (hret : h env (call.getField "parameters") st = .ok (r, st2)) :
    ((execCallWith fm env call st).1.getField "success" = .vbool true ↔
      r.getField "success" ≠ .vbool false) ∧
    (execCallWith fm env call st).1.getField "success"
      = .vbool (strictNeqFalse (r.getField "success")) ∧
    (execCallWith fm env call st).1.getField "error" = Value.jsOr (r.getField "error") .vnull ∧
    (execCallWith fm env call st).1.getField "data" = Value.jsOr (r.getField "data") r ∧
    (execCallWith fmInfo errEnv infoCall initialState).1.getField "success" = .vbool true ∧
    (execCallWith fmInfo errEnv infoCall initialState).1.getField "error"
      = .vstr ("Failed to retrieve data.") ∧
    strIncludes (renderResults [(execCallWith fmInfo errEnv infoCall initialState).1])
      ("Status: Success") = true := by
  have hmain : (execCallWith fm env call st).1
      = .vobj [("functionName", call.getField "function"),
        ("parameters", call.getField "parameters"),
        ("success", .vbool (strictNeqFalse (r.getField "success"))),
        ("data", Value.jsOr (r.getField "data") r),
        ("error", Value.jsOr (r.getField "error") .vnull)] := by
    simp only [execCallWith, hname, hret]
  refine ⟨?_, by rw [hmain]; rfl, by rw [hmain]; rfl, by rw [hmain]; rfl, rfl, rfl, rfl⟩
  rw [hmain]
  show Value.vbool (strictNeqFalse (r.getField "success")) = .vbool true ↔
    r.getField "success" ≠ .vbool false
  rw [show (Value.vbool (strictNeqFalse (r.getField "success")) = Value.vbool true) ↔
    (strictNeqFalse (r.getField "success") = true) from
      ⟨fun hh => by injection hh, fun hh => by rw [hh]⟩]
  exact strictNeqFalse_iff _

/-- Witness for C10: dispatching the part_000 handler with a failing store
records its error-only return value as a success. -/
theorem C10_success_flag_witness :
    (execCallWith fmInfo errEnv infoCall initialState).1.getField "success" = .vbool true ↔
      (Value.vobj [("error", .vstr "Failed to retrieve data.")]).getField "success"
        ≠ .vbool false :=
  (C10_success_flag fmInfo errEnv initialState infoCall getDatabaseInfo
    (.vobj [("error", .vstr "Failed to retrieve data.")]) initialState rfl rfl).1
